import Mathlib

/-!
Verification development for the speech-synthesis-pipeline repository.

The definitions below are a shallow embedding of the metrics-persistence and
filtering engine:

* `src/metrics_collection/models.py` — the relational schema (rows become
  structures, tables become lists of rows; floating-point columns are modelled
  as rationals).
* `src/utils.py` — `read_metadata_and_calculate_hash` (pandas `drop_duplicates`
  becomes a first-occurrence key-based dedup).
* `src/metrics_collection/collect_audio_metrics.py` —
  `calculate_and_load_metrics_to_db` and its computation units.  The per-file
  audio decoding is external I/O, modelled as a parameter function from a
  metadata row to an optional payload.
* `src/filtration/database_filtration.py` — `FiltersGenerator`, the quota
  filters, `filter_dataset` and `process_filtered_data`.  SQL queries are
  modelled over the list-based store; outer joins become `Option`-valued
  columns, and SQL three-valued comparison with NULL makes a predicate on an
  absent column evaluate to false.
-/

namespace SpeechPipeline

/-- A row of the flat metadata table after the hash column is available:
`path_to_wav`, `speaker_id`, `hash` (see `read_metadata_and_calculate_hash`
in `src/utils.py`). -/
structure MetaRow where
  path_to_wav : String
  speaker_id : Int
  hash : String
deriving DecidableEq, Repr

/-- The audio information extracted from one decodable file by the external
libraries (soundfile + pydub) in `collect_audio_metrics.py`. -/
structure AudioInfoPayload where
  duration_seconds : ℚ
  sample_rate : Int
  channels : Int
  pcm_format : String
  SNR : ℚ
  dBFS : ℚ
deriving DecidableEq, Repr

/-- `AudioMetrics` ORM row (`src/metrics_collection/models.py`), primary key
`audio_md5_hash`. -/
structure AudioMetricsRow where
  audio_md5_hash : String
  duration_seconds : ℚ
  sample_rate : Int
  channels : Int
  pcm_format : String
  SNR : ℚ
  dBFS : ℚ
deriving DecidableEq, Repr

/-- `AudioToDataset` ORM row.  The surrogate auto-increment `id` primary key is
represented by the row's position in the table list. -/
structure AudioToDatasetRow where
  audio_md5_hash : String
  dataset_name : String
  path_to_file : String
  speaker_id : Int
deriving DecidableEq, Repr

/-- `TextComparationMetrics` ORM row, primary key `audio_md5_hash`. -/
structure TextComparationMetricsRow where
  audio_md5_hash : String
  WER : ℚ
  CER : ℚ
deriving DecidableEq, Repr

/-- Shape shared by the `AudioToOriginalText` and `AudioToASRText` ORM rows,
primary key `audio_md5_hash`. -/
structure AudioTextRow where
  audio_md5_hash : String
  text : String
deriving DecidableEq, Repr

/-- The relational store: one list of rows per table. -/
structure MetricsStore where
  audio_metrics : List AudioMetricsRow
  audio_to_dataset : List AudioToDatasetRow
  text_comparation_metrics : List TextComparationMetricsRow
  audio_to_original_text : List AudioTextRow
  audio_to_asr_text : List AudioTextRow
deriving DecidableEq, Repr

/-- Hashes present in the `audio_metrics` table. -/
def amHashes (am : List AudioMetricsRow) : List String :=
  am.map (·.audio_md5_hash)

/-- Hashes present in the `audio_to_dataset` table, scoped to one dataset name
(the `where AudioToDataset.dataset_name == dataset_name` clause). -/
def atdHashes (atd : List AudioToDatasetRow) (ds : String) : List String :=
  (atd.filter (fun r => r.dataset_name = ds)).map (·.audio_md5_hash)

/-- pandas `drop_duplicates` keyed by `key`: keep the first occurrence of each
key, given the set of keys already seen. -/
def dropDuplicatesBy {α β : Type} [DecidableEq β] (key : α → β) :
    List α → List β → List α
  | [], _ => []
  | r :: rs, seen =>
    if key r ∈ seen then dropDuplicatesBy key rs seen
    else r :: dropDuplicatesBy key rs (key r :: seen)

/-- `read_metadata_and_calculate_hash` (`src/utils.py`): whole-row
`drop_duplicates`, hash backfill (the hashes are already part of `MetaRow`
here), then `drop_duplicates(subset=["hash"])`. -/
def read_metadata_and_calculate_hash (raw : List MetaRow) : List MetaRow :=
  dropDuplicatesBy (fun r => r.hash) (dropDuplicatesBy id raw []) []

/-- The `AudioMetrics` record built in `process_file`
(`collect_audio_metrics.py`): the hash column comes from the metadata row, the
measured fields from the decoded audio. -/
def mkAudioMetrics (r : MetaRow) (p : AudioInfoPayload) : AudioMetricsRow :=
  ⟨r.hash, p.duration_seconds, p.sample_rate, p.channels, p.pcm_format, p.SNR, p.dBFS⟩

/-- `get_audio_metrics_from_selected_samples`: map the computation unit over
the batch and drop the `None` results. -/
def get_audio_metrics_from_selected_samples
    (compute : MetaRow → Option AudioInfoPayload) (rows : List MetaRow) :
    List AudioMetricsRow :=
  rows.filterMap (fun r => (compute r).map (mkAudioMetrics r))

/-- `get_datasets_info_from_selected_samples`: the `AudioToDataset` constructor
never fails, so the `None` filter is vacuous. -/
def get_datasets_info_from_selected_samples (ds : String) (rows : List MetaRow) :
    List AudioToDatasetRow :=
  rows.map (fun r => ⟨r.hash, ds, r.path_to_wav, r.speaker_id⟩)

/-- Bulk UPDATE of `audio_metrics` by primary key: each payload record replaces
the stored row carrying the same hash. -/
def bulk_update_audio_metrics (tbl payload : List AudioMetricsRow) :
    List AudioMetricsRow :=
  payload.foldl
    (fun t p => t.map (fun row => if row.audio_md5_hash = p.audio_md5_hash then p else row))
    tbl

/-- Bulk UPDATE of `audio_to_dataset`.  The real primary key is the surrogate
`id`; the payload records are keyed here by (hash, dataset) which identifies at
most one row per dataset under the reconciliation invariant. -/
def bulk_update_audio_to_dataset (tbl payload : List AudioToDatasetRow) :
    List AudioToDatasetRow :=
  payload.foldl
    (fun t p => t.map (fun row =>
      if row.audio_md5_hash = p.audio_md5_hash ∧ row.dataset_name = p.dataset_name
      then p else row))
    tbl

/-- The records passed to `session.execute(update(AudioMetrics), ...)` in the
overwrite branch of `calculate_and_load_metrics_to_db`
(`collect_audio_metrics.py` lines 151-158).  Faithful to the source: the
dataframe handed to the computation unit there is the variable `samples_to_add`
as last assigned on line 145 — the rows whose hash is NOT among the
dataset-info hashes — not the `samples_to_update` computed on line 153. -/
def audio_overwrite_payload (compute : MetaRow → Option AudioInfoPayload)
    (md : List MetaRow) (store : MetricsStore) (ds : String) :
    List AudioMetricsRow :=
  get_audio_metrics_from_selected_samples compute
    (md.filter (fun r => r.hash ∉ atdHashes store.audio_to_dataset ds))

/-- `calculate_and_load_metrics_to_db` (`collect_audio_metrics.py`): partition
the deduplicated metadata by fingerprint presence, insert the `to_add`
partitions, optionally run the overwrite bulk updates, commit. -/
def calculate_and_load_metrics_to_db (compute : MetaRow → Option AudioInfoPayload)
    (ds : String) (raw : List MetaRow) (overwrite : Bool) (store : MetricsStore) :
    MetricsStore :=
  let md := read_metadata_and_calculate_hash raw
  let existingA := amHashes store.audio_metrics
  let existingD := atdHashes store.audio_to_dataset ds
  let am1 := store.audio_metrics ++
    get_audio_metrics_from_selected_samples compute
      (md.filter (fun r => r.hash ∉ existingA))
  let atd1 := store.audio_to_dataset ++
    get_datasets_info_from_selected_samples ds
      (md.filter (fun r => r.hash ∉ existingD))
  if overwrite then
    { store with
      audio_metrics :=
        bulk_update_audio_metrics am1 (audio_overwrite_payload compute md store ds)
      audio_to_dataset :=
        bulk_update_audio_to_dataset atd1
          (get_datasets_info_from_selected_samples ds
            (md.filter (fun r => r.hash ∈ existingD))) }
  else
    { store with audio_metrics := am1, audio_to_dataset := atd1 }

/-! ## Filtration (`src/filtration/database_filtration.py`) -/

/-- A `{min, max}` block of a range filter in the YAML config. -/
structure RangeCfg where
  min : Option ℚ
  max : Option ℚ
deriving DecidableEq, Repr

/-- A `samples_per_speaker` block (counts are integers). -/
structure SamplesQuotaCfg where
  min : Option Int
  max : Option Int
deriving DecidableEq, Repr

/-- A `minutes_per_speaker` block. -/
structure MinutesQuotaCfg where
  min : Option ℚ
  max : Option ℚ
deriving DecidableEq, Repr

/-- One named filter profile from the YAML file: each recognized key is
optional, absence meaning "no constraint". -/
structure FilterConfig where
  sample_rate : Option Int := none
  channels : Option Int := none
  duration : Option RangeCfg := none
  SNR : Option RangeCfg := none
  dBFS : Option RangeCfg := none
  CER : Option RangeCfg := none
  WER : Option RangeCfg := none
  use_unknown_speakers : Option Bool := none
  only_with_ASR_texts : Option Bool := none
  only_with_Original_texts : Option Bool := none
  samples_per_speaker : Option SamplesQuotaCfg := none
  minutes_per_speaker : Option MinutesQuotaCfg := none
deriving DecidableEq, Repr

/-- `FiltersGenerator.read_yaml_config`: look up the requested profile, fall
back to `"default"`, raise `ValueError` when that is also missing. -/
def read_yaml_config (configs : List (String × FilterConfig))
    (config_name : Option String) : Except String FilterConfig :=
  match config_name with
  | some n =>
    match configs.lookup n with
    | some c => Except.ok c
    | none =>
      match configs.lookup "default" with
      | some c => Except.ok c
      | none => Except.error "Default configs was not found"
  | none =>
    match configs.lookup "default" with
    | some c => Except.ok c
    | none => Except.error "Default configs was not found"

/-- One result row of the `filter_dataset` query: the selected columns plus the
outer-joined metric columns the generated predicates read.  A missing joined
row makes its columns SQL NULL, modelled as `none`. -/
structure JoinedRow where
  path_to_file : String
  speaker_id : Int
  audio_md5_hash : String
  original_text : Option String
  asr_text : Option String
  duration_seconds : Option ℚ
  sample_rate : Option Int
  channels : Option Int
  SNR : Option ℚ
  dBFS : Option ℚ
  WER : Option ℚ
  CER : Option ℚ
deriving DecidableEq, Repr

/-- Build the outer-joined row for one `AudioToDataset` row: each satellite
table is looked up by fingerprint (its primary key). -/
def joinRow (store : MetricsStore) (r : AudioToDatasetRow) : JoinedRow :=
  let am := store.audio_metrics.find? (fun m => m.audio_md5_hash = r.audio_md5_hash)
  let tcm := store.text_comparation_metrics.find?
    (fun m => m.audio_md5_hash = r.audio_md5_hash)
  let orig := store.audio_to_original_text.find?
    (fun m => m.audio_md5_hash = r.audio_md5_hash)
  let asr := store.audio_to_asr_text.find?
    (fun m => m.audio_md5_hash = r.audio_md5_hash)
  { path_to_file := r.path_to_file
    speaker_id := r.speaker_id
    audio_md5_hash := r.audio_md5_hash
    original_text := orig.map (·.text)
    asr_text := asr.map (·.text)
    duration_seconds := am.map (·.duration_seconds)
    sample_rate := am.map (·.sample_rate)
    channels := am.map (·.channels)
    SNR := am.map (·.SNR)
    dBFS := am.map (·.dBFS)
    WER := tcm.map (·.WER)
    CER := tcm.map (·.CER) }

/-- The joined, dataset-scoped candidate rows of the `filter_dataset` query
before any generated predicate is applied. -/
def joinedRows (store : MetricsStore) (ds : String) : List JoinedRow :=
  (store.audio_to_dataset.filter (fun r => r.dataset_name = ds)).map (joinRow store)

/-- `FiltersGenerator._create_range_filter`: four-way case split on the
configured `min`/`max`.  The resulting SQL predicate compares the (possibly
NULL) column; comparison with NULL is not true, so an absent column value
fails the predicate. -/
def create_range_filter (settings : Option RangeCfg) (column : JoinedRow → Option ℚ) :
    Option (JoinedRow → Bool) :=
  match settings with
  | none => none
  | some s =>
    match s.min, s.max with
    | some mn, some mx =>
      some (fun r => match column r with
        | some v => decide (mn ≤ v) && decide (v ≤ mx)
        | none => false)
    | none, some mx =>
      some (fun r => match column r with
        | some v => decide (v ≤ mx)
        | none => false)
    | some mn, none =>
      some (fun r => match column r with
        | some v => decide (v ≥ mn)
        | none => false)
    | none, none => none

/-- `sample_rate_filter`: exact-match predicate when configured. -/
def sample_rate_filter (cfg : FilterConfig) : Option (JoinedRow → Bool) :=
  match cfg.sample_rate with
  | some v => some (fun r => r.sample_rate = some v)
  | none => none

/-- `channels_filter`: exact-match predicate when configured. -/
def channels_filter (cfg : FilterConfig) : Option (JoinedRow → Bool) :=
  match cfg.channels with
  | some v => some (fun r => r.channels = some v)
  | none => none

/-- `duration_filter`. -/
def duration_filter (cfg : FilterConfig) : Option (JoinedRow → Bool) :=
  create_range_filter cfg.duration (·.duration_seconds)

/-- `SNR_filter`. -/
def SNR_filter (cfg : FilterConfig) : Option (JoinedRow → Bool) :=
  create_range_filter cfg.SNR (·.SNR)

/-- `dBFS_filter`. -/
def dBFS_filter (cfg : FilterConfig) : Option (JoinedRow → Bool) :=
  create_range_filter cfg.dBFS (·.dBFS)

/-- `CER_filter`. -/
def CER_filter (cfg : FilterConfig) : Option (JoinedRow → Bool) :=
  create_range_filter cfg.CER (·.CER)

/-- `WER_filter`. -/
def WER_filter (cfg : FilterConfig) : Option (JoinedRow → Bool) :=
  create_range_filter cfg.WER (·.WER)

/-- `use_unknown_speakers_filter`: active only when configured false. -/
def use_unknown_speakers_filter (cfg : FilterConfig) : Option (JoinedRow → Bool) :=
  match cfg.use_unknown_speakers with
  | some u => if u then none else some (fun r => r.speaker_id ≠ -1)
  | none => none

/-- `only_with_ASR_texts_filter`: active only when configured true. -/
def only_with_ASR_texts_filter (cfg : FilterConfig) : Option (JoinedRow → Bool) :=
  match cfg.only_with_ASR_texts with
  | some u => if u then some (fun r => r.asr_text ≠ none) else none
  | none => none

/-- `only_with_Original_texts_filter`: active only when configured true. -/
def only_with_Original_texts_filter (cfg : FilterConfig) : Option (JoinedRow → Bool) :=
  match cfg.only_with_Original_texts with
  | some u => if u then some (fun r => r.original_text ≠ none) else none
  | none => none

/-- `FiltersGenerator.generate_filters`: the configured predicates, `None`
entries removed. -/
def generate_filters (cfg : FilterConfig) : List (JoinedRow → Bool) :=
  [sample_rate_filter cfg,
   channels_filter cfg,
   duration_filter cfg,
   SNR_filter cfg,
   dBFS_filter cfg,
   CER_filter cfg,
   WER_filter cfg,
   use_unknown_speakers_filter cfg,
   only_with_ASR_texts_filter cfg,
   only_with_Original_texts_filter cfg].filterMap id

/-- The query after the `for f in filters: query = query.filter(f)` loop:
candidate rows passing every generated predicate. -/
def basicFilteredRows (cfg : FilterConfig) (store : MetricsStore) (ds : String) :
    List JoinedRow :=
  (joinedRows store ds).filter (fun r => (generate_filters cfg).all (fun p => p r))

/-- The `AudioToDataset` rows of one dataset, in table order. -/
def dsRows (store : MetricsStore) (ds : String) : List AudioToDatasetRow :=
  store.audio_to_dataset.filter (fun r => r.dataset_name = ds)

/-- The rows of one speaker within one dataset.  The query orders by
`speaker_id`, which is constant inside one speaker's group, so the effective
order is the store's row order. -/
def speakerRows (store : MetricsStore) (ds : String) (spk : Int) :
    List AudioToDatasetRow :=
  (dsRows store ds).filter (fun r => r.speaker_id = spk)

/-- The hashes of one speaker's rows, in query order. -/
def speakerHashes (store : MetricsStore) (ds : String) (spk : Int) : List String :=
  (speakerRows store ds spk).map (·.audio_md5_hash)

/-- `FiltersGenerator._get_speaker_filter_query`: `GROUP BY speaker_id` with a
count per group.  Groups are listed in first-occurrence order. -/
def get_speaker_filter_query (store : MetricsStore) (ds : String) :
    List (Int × Nat) :=
  (dropDuplicatesBy id ((dsRows store ds).map (·.speaker_id)) []).map
    (fun s => (s, (speakerRows store ds s).length))

/-- `FiltersGenerator.samples_per_speaker_filter`: `None` when the block or its
`max` key is absent; otherwise, per speaker: over quota keeps the first `max`
rows, under a configured `min` contributes nothing, otherwise keeps all. -/
def samples_per_speaker_filter (cfg : FilterConfig) (store : MetricsStore)
    (ds : String) : Option (List String) :=
  match cfg.samples_per_speaker with
  | none => none
  | some settings =>
    match settings.max with
    | none => none
    | some maxB =>
      some ((get_speaker_filter_query store ds).flatMap (fun sc =>
        if (sc.2 : Int) > maxB then (speakerHashes store ds sc.1).take maxB.toNat
        else if (match settings.min with
                 | some minB => decide ((sc.2 : Int) < minB)
                 | none => false)
        then []
        else speakerHashes store ds sc.1))

/-- Inner join of one speaker's `AudioToDataset` rows with `AudioMetrics` on
the fingerprint, yielding (hash, duration) pairs in query order.  `find?`
returns the unique matching row under the primary-key invariant. -/
def joinedDurations (store : MetricsStore) (ds : String) (spk : Int) :
    List (String × ℚ) :=
  (speakerRows store ds spk).filterMap (fun r =>
    (store.audio_metrics.find? (fun m => m.audio_md5_hash = r.audio_md5_hash)).map
      (fun m => (r.audio_md5_hash, m.duration_seconds)))

/-- The dataset's speakers that have at least one joined (metrics-bearing) row,
paired with their summed duration: the `speaker_durations` grouped query. -/
def speaker_durations (store : MetricsStore) (ds : String) : List (Int × ℚ) :=
  (dropDuplicatesBy id
      (((dsRows store ds).filter (fun r =>
        (store.audio_metrics.find? (fun m => m.audio_md5_hash = r.audio_md5_hash)).isSome)).map
        (·.speaker_id)) []).map
    (fun s => (s, ((joinedDurations store ds s).map (·.2)).sum))

/-- The `for hash, sample_duration in samples_and_durations` loop: append each
hash, add its duration to the running total, and break right after the total
first exceeds the cap (the crossing sample is included). -/
def accumulateUntil (cap : ℚ) : List (String × ℚ) → ℚ → List String
  | [], _ => []
  | (h, d) :: rest, acc =>
    if acc + d > cap then [h] else h :: accumulateUntil cap rest (acc + d)

/-- `FiltersGenerator.minutes_per_speaker_filter`.  Faithful to the source: the
over-cap test compares against `max * 60` while the under-min test compares the
summed seconds against `min` directly (line 322 has no `* 60`). -/
def minutes_per_speaker_filter (cfg : FilterConfig) (store : MetricsStore)
    (ds : String) : Option (List String) :=
  match cfg.minutes_per_speaker with
  | none => none
  | some settings =>
    match settings.max with
    | none => none
    | some maxB =>
      some ((speaker_durations store ds).flatMap (fun sd =>
        if sd.2 > maxB * 60 then accumulateUntil (maxB * 60) (joinedDurations store ds sd.1) 0
        else if (match settings.min with
                 | some minB => decide (sd.2 < minB)
                 | none => false)
        then []
        else speakerHashes store ds sd.1))

/-- The query result after the two optional `in_` allow-list intersections in
`filter_dataset`. -/
def filter_dataset_rows (cfg : FilterConfig) (store : MetricsStore) (ds : String) :
    List JoinedRow :=
  let base := basicFilteredRows cfg store ds
  let base2 := match samples_per_speaker_filter cfg store ds with
    | none => base
    | some allow => base.filter (fun r => r.audio_md5_hash ∈ allow)
  match minutes_per_speaker_filter cfg store ds with
  | none => base2
  | some allow => base2.filter (fun r => r.audio_md5_hash ∈ allow)

/-- One row of the dataframe returned by `filter_dataset`: the five selected
columns. -/
structure FilteredRow where
  path_to_wav : String
  speaker_id : Int
  hash : String
  original_text : Option String
  asr_text : Option String
deriving DecidableEq, Repr

/-- Projection of a query result row onto the returned dataframe columns. -/
def toFilteredRow (r : JoinedRow) : FilteredRow :=
  ⟨r.path_to_file, r.speaker_id, r.audio_md5_hash, r.original_text, r.asr_text⟩

/-- `filter_dataset`: load the configuration (a configuration error propagates
before the store is touched), then run the query pipeline. -/
def filter_dataset (configs : List (String × FilterConfig))
    (config_name : Option String) (store : MetricsStore) (ds : String) :
    Except String (List FilteredRow) :=
  match read_yaml_config configs config_name with
  | Except.error e => Except.error e
  | Except.ok cfg =>
    Except.ok ((filter_dataset_rows cfg store ds).map toFilteredRow)

/-- One row of the dataframe produced by `process_filtered_data` after the
text columns are dropped, plus the optional resolved `text` column. -/
structure ProcessedRow where
  path_to_wav : String
  speaker_id : Int
  hash : String
  text : Option String
deriving DecidableEq, Repr

/-- `process_filtered_data`: when `include_text` is set, add a `text` column
preferring `original_text` (`fillna` with `asr_text`), drop rows whose `text`
is null, then drop the two source text columns. -/
def process_filtered_data (df : List FilteredRow) (include_text : Bool) :
    List ProcessedRow :=
  if include_text then
    (df.map (fun r =>
        (r, match r.original_text with
            | some t => some t
            | none => r.asr_text))).filterMap
      (fun rt => match rt.2 with
        | some t => some ⟨rt.1.path_to_wav, rt.1.speaker_id, rt.1.hash, some t⟩
        | none => none)
  else
    df.map (fun r => ⟨r.path_to_wav, r.speaker_id, r.hash, none⟩)

/-! ## Per-file computation units and missing source files
(`collect_metrics_from_dataset.py` and `collect_audio_metrics.py`)

The external file system is modelled as a partial map from a path to the audio
information the decoding libraries would extract: `none` means the file is
absent, in which case opening it raises `FileNotFoundError`. -/

/-- `get_audio_info` (`collect_metrics_from_dataset.py`): the whole body,
including `AudioSegment.from_file(path_to_audio)`, sits inside
`try ... except FileNotFoundError`, so a missing file yields `None`. -/
def get_audio_info (fs : String → Option AudioInfoPayload) (hash path : String) :
    Option AudioMetricsRow :=
  match fs path with
  | none => none
  | some p => some ⟨hash, p.duration_seconds, p.sample_rate, p.channels,
      p.pcm_format, p.SNR, p.dBFS⟩

/-- The per-batch computation of `collect_metrics_from_dataset.main`
(lines 110-119): map `get_audio_info` over the batch and drop the `None`
results; a missing file never raises. -/
def collectMetricsBatch (fs : String → Option AudioInfoPayload)
    (rows : List MetaRow) : List AudioMetricsRow :=
  (rows.map (fun r => get_audio_info fs r.hash r.path_to_wav)).filterMap id

/-- `process_file` inside `get_audio_metrics_from_selected_samples`
(`collect_audio_metrics.py`): `file_system_manager.get_buffered_reader` opens
the file before any `try` block, so a missing file raises `FileNotFoundError`
out of the unit; the `except FileNotFoundError` handlers inside
`get_audio_info_sf` / `get_audio_info_pydub` only guard code running on an
already-open reader and cannot fire for an absent file. -/
def process_file (fs : String → Option AudioInfoPayload) (r : MetaRow) :
    Except String (Option AudioMetricsRow) :=
  match fs r.path_to_wav with
  | none => Except.error "FileNotFoundError"
  | some p => Except.ok (some (mkAudioMetrics r p))

/-- The batch run of `get_audio_metrics_from_selected_samples`: the parallel
map propagates the first worker exception, aborting the whole batch; on
success the `None` results would be dropped. -/
def collectAudioMetricsBatchRun (fs : String → Option AudioInfoPayload)
    (rows : List MetaRow) : Except String (List AudioMetricsRow) :=
  (rows.mapM (process_file fs)).map (fun l => l.filterMap id)

/-! ## Concrete fixtures for counterexamples and witnesses -/

/-- A fixed audio payload used by the concrete evaluations. -/
def samplePayload : AudioInfoPayload := ⟨1, 16000, 1, "PCM_16", 0, 0⟩

/-- Configuration exercising the under-minimum branch of
`minutes_per_speaker_filter`: at least 1 minute, at most 100 minutes. -/
def cfgMinOneMinute : FilterConfig :=
  { minutes_per_speaker := some ⟨some 1, some 100⟩ }

/-- A store with a single 30-second sample for one speaker. -/
def storeThirtySeconds : MetricsStore :=
  { audio_metrics := [⟨"h1", 30, 16000, 1, "PCM_16", 0, 0⟩]
    audio_to_dataset := [⟨"h1", "ds", "a.wav", 0⟩]
    text_comparation_metrics := []
    audio_to_original_text := []
    audio_to_asr_text := [] }

/-- A computation unit that succeeds on every file. -/
def computeAlways : MetaRow → Option AudioInfoPayload := fun _ => some samplePayload

/-- Metadata with two rows carrying fingerprints "a" and "b". -/
def mdTwoRows : List MetaRow := [⟨"a.wav", 0, "a"⟩, ⟨"b.wav", 0, "b"⟩]

/-- A store in which fingerprint "a" already has an `AudioMetrics` row but the
`audio_to_dataset` table is empty. -/
def storeWithA : MetricsStore :=
  { audio_metrics := [⟨"a", 1, 16000, 1, "PCM_16", 0, 0⟩]
    audio_to_dataset := []
    text_comparation_metrics := []
    audio_to_original_text := []
    audio_to_asr_text := [] }

/-- A file system in which only "present.wav" exists. -/
def fsOnlyPresent : String → Option AudioInfoPayload :=
  fun p => if p = "present.wav" then some samplePayload else none

/-- A two-file batch whose first file is absent. -/
def rowsMissingFirst : List MetaRow :=
  [⟨"missing.wav", 0, "h1"⟩, ⟨"present.wav", 0, "h2"⟩]

/-- Modelled from the spec's output contract: resolved text prefers
OriginalText, falls back to ASRText, and a row with neither is dropped. -/
def spec_resolve_text (s : FilteredRow) : Option ProcessedRow :=
  match s.original_text with
  | some t => some ⟨s.path_to_wav, s.speaker_id, s.hash, some t⟩
  | none =>
    match s.asr_text with
    | some t => some ⟨s.path_to_wav, s.speaker_id, s.hash, some t⟩
    | none => none

/-- Modelled from the spec: the constraint a configured `{min, max}` block
imposes on a returned row's column value — absence of the key means no
constraint, one key gives a one-sided bound, both give the inclusive
two-sided bound `min <= value <= max`. -/
def rangeClaimOk (s : Option RangeCfg) (v : Option ℚ) : Prop :=
  match s with
  | none => True
  | some c =>
    match c.min, c.max with
    | none, none => True
    | some mn, none => ∃ x, v = some x ∧ mn ≤ x
    | none, some mx => ∃ x, v = some x ∧ x ≤ mx
    | some mn, some mx => ∃ x, v = some x ∧ mn ≤ x ∧ x ≤ mx

/-- Configuration with a two-sided duration bound. -/
def cfgDurationRange : FilterConfig := { duration := some ⟨some 2, some 15⟩ }

/-- A store with one in-range (5 s) and one out-of-range (20 s) sample. -/
def storeDuration : MetricsStore :=
  { audio_metrics := [⟨"h1", 5, 16000, 1, "PCM_16", 0, 0⟩,
                      ⟨"h2", 20, 16000, 1, "PCM_16", 0, 0⟩]
    audio_to_dataset := [⟨"h1", "ds", "a.wav", 0⟩, ⟨"h2", "ds", "b.wav", 0⟩]
    text_comparation_metrics := []
    audio_to_original_text := []
    audio_to_asr_text := [] }

/-- Configuration capping each speaker at 2 samples. -/
def cfgMaxTwoSamples : FilterConfig := { samples_per_speaker := some ⟨none, some 2⟩ }

/-- A store in which speaker 1 has five candidate rows. -/
def storeFiveSamples : MetricsStore :=
  { audio_metrics := []
    audio_to_dataset := [⟨"h1", "ds", "1.wav", 1⟩, ⟨"h2", "ds", "2.wav", 1⟩,
      ⟨"h3", "ds", "3.wav", 1⟩, ⟨"h4", "ds", "4.wav", 1⟩, ⟨"h5", "ds", "5.wav", 1⟩]
    text_comparation_metrics := []
    audio_to_original_text := []
    audio_to_asr_text := [] }

/-- Configuration capping each speaker at 1 minute. -/
def cfgMaxOneMinute : FilterConfig :=
  { minutes_per_speaker := some ⟨none, some 1⟩ }

/-- A store in which speaker 0 has three samples lasting 50, 40 and 30
seconds, 120 seconds in total. -/
def storeTwoMinutes : MetricsStore :=
  { audio_metrics := [⟨"h1", 50, 16000, 1, "PCM_16", 0, 0⟩,
      ⟨"h2", 40, 16000, 1, "PCM_16", 0, 0⟩, ⟨"h3", 30, 16000, 1, "PCM_16", 0, 0⟩]
    audio_to_dataset := [⟨"h1", "ds", "1.wav", 0⟩, ⟨"h2", "ds", "2.wav", 0⟩,
      ⟨"h3", "ds", "3.wav", 0⟩]
    text_comparation_metrics := []
    audio_to_original_text := []
    audio_to_asr_text := [] }

/-! ## Helper lemmas -/

theorem dropDuplicatesBy_key_not_seen {α β : Type} [DecidableEq β] (key : α → β)
    (l : List α) (seen : List β) :
    ∀ r ∈ dropDuplicatesBy key l seen, key r ∉ seen := by
  induction l generalizing seen with
  | nil => intro r hr; simp [dropDuplicatesBy] at hr
  | cons x xs ih =>
    intro r hr
    simp only [dropDuplicatesBy] at hr
    by_cases h : key x ∈ seen
    · rw [if_pos h] at hr
      exact ih seen r hr
    · rw [if_neg h] at hr
      rcases List.mem_cons.mp hr with rfl | hr'
      · exact h
      · intro hseen
        exact ih _ r hr' (List.mem_cons_of_mem _ hseen)

theorem dropDuplicatesBy_map_key_nodup {α β : Type} [DecidableEq β] (key : α → β)
    (l : List α) (seen : List β) :
    ((dropDuplicatesBy key l seen).map key).Nodup := by
  induction l generalizing seen with
  | nil => simp [dropDuplicatesBy]
  | cons x xs ih =>
    simp only [dropDuplicatesBy]
    by_cases h : key x ∈ seen
    · rw [if_pos h]; exact ih seen
    · rw [if_neg h]
      simp only [List.map_cons, List.nodup_cons]
      refine ⟨fun hmem => ?_, ih _⟩
      rcases List.mem_map.mp hmem with ⟨r, hr, hkeyr⟩
      exact dropDuplicatesBy_key_not_seen key xs (key x :: seen) r hr
        (hkeyr ▸ List.mem_cons_self _ _)

theorem mem_dropDuplicatesBy_sub {α β : Type} [DecidableEq β] (key : α → β)
    (l : List α) (seen : List β) :
    ∀ r ∈ dropDuplicatesBy key l seen, r ∈ l := by
  induction l generalizing seen with
  | nil => intro r hr; simp [dropDuplicatesBy] at hr
  | cons x xs ih =>
    intro r hr
    simp only [dropDuplicatesBy] at hr
    by_cases h : key x ∈ seen
    · rw [if_pos h] at hr
      exact List.mem_cons_of_mem _ (ih seen r hr)
    · rw [if_neg h] at hr
      rcases List.mem_cons.mp hr with rfl | hr'
      · exact List.mem_cons_self _ _
      · exact List.mem_cons_of_mem _ (ih _ r hr')

theorem mem_map_key_dropDuplicatesBy {α β : Type} [DecidableEq β] (key : α → β)
    (l : List α) (seen : List β) (b : β) (hb : b ∈ l.map key) (hs : b ∉ seen) :
    b ∈ (dropDuplicatesBy key l seen).map key := by
  induction l generalizing seen with
  | nil => simp at hb
  | cons x xs ih =>
    simp only [List.map_cons, List.mem_cons] at hb
    simp only [dropDuplicatesBy]
    by_cases h : key x ∈ seen
    · rw [if_pos h]
      rcases hb with rfl | hb'
      · exact absurd h hs
      · exact ih seen hb' hs
    · rw [if_neg h]
      rcases hb with rfl | hb'
      · simp
      · by_cases hbx : b = key x
        · simp [hbx]
        · simp only [List.map_cons, List.mem_cons]
          exact Or.inr (ih (key x :: seen) hb' (by simp [hs, hbx]))

theorem amHashes_append (a b : List AudioMetricsRow) :
    amHashes (a ++ b) = amHashes a ++ amHashes b :=
  List.map_append _ _ _

theorem atdHashes_append (a b : List AudioToDatasetRow) (ds : String) :
    atdHashes (a ++ b) ds = atdHashes a ds ++ atdHashes b ds := by
  simp [atdHashes, List.filter_append]

theorem amHashes_get_audio_metrics_sublist (compute : MetaRow → Option AudioInfoPayload)
    (rows : List MetaRow) :
    (amHashes (get_audio_metrics_from_selected_samples compute rows)).Sublist
      (rows.map (·.hash)) := by
  induction rows with
  | nil => simp [get_audio_metrics_from_selected_samples, amHashes]
  | cons r rs ih =>
    simp only [get_audio_metrics_from_selected_samples, List.filterMap_cons,
      List.map_cons] at ih ⊢
    cases h : compute r with
    | none => exact ih.cons _
    | some p =>
      simp only [Option.map_some, amHashes, List.map_cons]
      exact ih.cons₂ _

theorem mem_amHashes_of_compute_some (compute : MetaRow → Option AudioInfoPayload)
    (rows : List MetaRow) (r : MetaRow) (p : AudioInfoPayload)
    (hr : r ∈ rows) (hp : compute r = some p) :
    r.hash ∈ amHashes (get_audio_metrics_from_selected_samples compute rows) := by
  have hmem : mkAudioMetrics r p ∈ get_audio_metrics_from_selected_samples compute rows :=
    List.mem_filterMap.mpr ⟨r, hr, by rw [hp]; rfl⟩
  exact List.mem_map.mpr ⟨mkAudioMetrics r p, hmem, rfl⟩

/-- After an add-new run, every metadata fingerprint for which the computation
unit succeeds is present in `audio_metrics`; the second-run `to_add` partition
therefore computes nothing. -/
theorem second_run_audio_adds_nothing (compute : MetaRow → Option AudioInfoPayload)
    (md : List MetaRow) (am : List AudioMetricsRow) :
    get_audio_metrics_from_selected_samples compute
      (md.filter (fun r => r.hash ∉ amHashes
        (am ++ get_audio_metrics_from_selected_samples compute
          (md.filter (fun r => r.hash ∉ amHashes am))))) = [] := by
  rw [get_audio_metrics_from_selected_samples, List.filterMap_eq_nil_iff]
  intro r hr
  rw [List.mem_filter] at hr
  obtain ⟨hrmd, hrh⟩ := hr
  rw [amHashes_append] at hrh
  simp only [decide_eq_true_eq, List.mem_append, not_or] at hrh
  obtain ⟨h1, h2⟩ := hrh
  cases hp : compute r with
  | none => rfl
  | some p =>
    exact absurd
      (mem_amHashes_of_compute_some compute _ r p
        (List.mem_filter.mpr ⟨hrmd, by simpa using h1⟩) hp) h2

/-- After an add-new run, every metadata fingerprint is present in the
dataset-scoped `audio_to_dataset` hashes; the second-run `to_add` partition is
empty. -/
theorem second_run_dataset_adds_nothing (ds : String) (md : List MetaRow)
    (atd : List AudioToDatasetRow) :
    md.filter (fun r => r.hash ∉ atdHashes
      (atd ++ get_datasets_info_from_selected_samples ds
        (md.filter (fun r => r.hash ∉ atdHashes atd ds))) ds) = [] := by
  rw [List.filter_eq_nil_iff]
  intro r hr
  rw [atdHashes_append]
  simp only [decide_eq_true_eq, List.mem_append, not_or, not_and, not_not]
  intro h1
  have hrf : r ∈ md.filter (fun r => r.hash ∉ atdHashes atd ds) :=
    List.mem_filter.mpr ⟨hr, by simpa using h1⟩
  have : (⟨r.hash, ds, r.path_to_wav, r.speaker_id⟩ : AudioToDatasetRow) ∈
      get_datasets_info_from_selected_samples ds
        (md.filter (fun r => r.hash ∉ atdHashes atd ds)) :=
    List.mem_map.mpr ⟨r, hrf, rfl⟩
  refine List.mem_map.mpr ⟨⟨r.hash, ds, r.path_to_wav, r.speaker_id⟩, ?_, rfl⟩
  exact List.mem_filter.mpr ⟨this, by simp⟩

/-- The add-new run written out: both `to_add` partitions appended, the other
tables untouched. -/
theorem run_false_eq (compute : MetaRow → Option AudioInfoPayload) (ds : String)
    (raw : List MetaRow) (store : MetricsStore) :
    calculate_and_load_metrics_to_db compute ds raw false store =
      { store with
        audio_metrics := store.audio_metrics ++
          get_audio_metrics_from_selected_samples compute
            ((read_metadata_and_calculate_hash raw).filter
              (fun r => r.hash ∉ amHashes store.audio_metrics))
        audio_to_dataset := store.audio_to_dataset ++
          get_datasets_info_from_selected_samples ds
            ((read_metadata_and_calculate_hash raw).filter
              (fun r => r.hash ∉ atdHashes store.audio_to_dataset ds)) } := rfl

/-- One add-new run preserves fingerprint uniqueness in `audio_metrics`. -/
theorem run_false_preserves_nodup (compute : MetaRow → Option AudioInfoPayload)
    (ds : String) (raw : List MetaRow) (store : MetricsStore)
    (h : (amHashes store.audio_metrics).Nodup) :
    (amHashes ((calculate_and_load_metrics_to_db compute ds raw false
      store).audio_metrics)).Nodup := by
  rw [run_false_eq]
  dsimp only
  rw [amHashes_append]
  set md := read_metadata_and_calculate_hash raw with hmd
  have hmdnd : (md.map (·.hash)).Nodup := dropDuplicatesBy_map_key_nodup _ _ _
  have hsub : (amHashes (get_audio_metrics_from_selected_samples compute
      (md.filter (fun r => r.hash ∉ amHashes store.audio_metrics)))).Sublist
      (md.map (·.hash)) :=
    (amHashes_get_audio_metrics_sublist _ _).trans
      ((List.filter_sublist _).map _)
  refine h.append (hsub.nodup hmdnd) ?_
  intro x hx hx'
  rw [amHashes, List.mem_map] at hx'
  obtain ⟨row, hrow, hrowh⟩ := hx'
  rw [get_audio_metrics_from_selected_samples, List.mem_filterMap] at hrow
  obtain ⟨r', hr', hr'eq⟩ := hrow
  rw [List.mem_filter] at hr'
  cases hc : compute r' with
  | none => rw [hc] at hr'eq; exact Option.noConfusion hr'eq
  | some p =>
    rw [hc] at hr'eq
    have hrw : row = mkAudioMetrics r' p := by simpa using hr'eq.symm
    have hhash : r'.hash = x := by rw [hrw] at hrowh; exact hrowh
    have hnot := hr'.2
    rw [hhash] at hnot
    simp only [decide_eq_true_eq] at hnot
    exact hnot hx

/-- C1: with overwrite disabled, running the add-new reconciliation a second
time on the same input set leaves the store unchanged, and fingerprint
uniqueness in the fingerprint-keyed `audio_metrics` table is maintained after
any number of runs. -/
theorem C1_add_new_idempotent_and_unique (compute : MetaRow → Option AudioInfoPayload)
    (ds : String) (raw : List MetaRow) (store : MetricsStore) (n : ℕ)
    (h : (amHashes store.audio_metrics).Nodup) :
    calculate_and_load_metrics_to_db compute ds raw false
        (calculate_and_load_metrics_to_db compute ds raw false store) =
      calculate_and_load_metrics_to_db compute ds raw false store ∧
    (amHashes (((calculate_and_load_metrics_to_db compute ds raw false)^[n])
        store).audio_metrics).Nodup := by
  constructor
  · conv_lhs => rw [run_false_eq compute ds raw store, run_false_eq]
    dsimp only
    rw [second_run_audio_adds_nothing, second_run_dataset_adds_nothing]
    simp [run_false_eq, get_datasets_info_from_selected_samples]
  · induction n with
    | zero => simpa using h
    | succ k ih =>
      rw [Function.iterate_succ_apply']
      exact run_false_preserves_nodup compute ds raw _ ih

/-- Witness for C1: two fresh metadata rows over a store already holding
fingerprint "a", iterated twice. -/
theorem C1_add_new_idempotent_and_unique_witness :
    calculate_and_load_metrics_to_db computeAlways "ds" mdTwoRows false
        (calculate_and_load_metrics_to_db computeAlways "ds" mdTwoRows false
          storeWithA) =
      calculate_and_load_metrics_to_db computeAlways "ds" mdTwoRows false
        storeWithA ∧
    (amHashes (((calculate_and_load_metrics_to_db computeAlways "ds" mdTwoRows
        false)^[2]) storeWithA).audio_metrics).Nodup :=
  C1_add_new_idempotent_and_unique computeAlways "ds" mdTwoRows storeWithA 2
    (by decide)

/-! ## Claim theorems (filtration) -/

theorem create_range_filter_sound (s : Option RangeCfg) (col : JoinedRow → Option ℚ)
    (r : JoinedRow)
    (hact : ∀ p, create_range_filter s col = some p → p r = true) :
    rangeClaimOk s (col r) := by
  cases s with
  | none => trivial
  | some c =>
    cases hmn : c.min with
    | none =>
      cases hmx : c.max with
      | none => simp [rangeClaimOk, hmn, hmx]
      | some mx =>
        have heq : create_range_filter (some c) col =
            some (fun row => match col row with
              | some v => decide (v ≤ mx)
              | none => false) := by
          simp only [create_range_filter, hmn, hmx]
        have hp := hact _ heq
        simp only [rangeClaimOk, hmn, hmx]
        cases hc : col r with
        | none => simp only [hc] at hp; exact absurd hp Bool.false_ne_true
        | some v =>
          simp only [hc] at hp
          exact ⟨v, rfl, of_decide_eq_true hp⟩
    | some mn =>
      cases hmx : c.max with
      | none =>
        have heq : create_range_filter (some c) col =
            some (fun row => match col row with
              | some v => decide (v ≥ mn)
              | none => false) := by
          simp only [create_range_filter, hmn, hmx]
        have hp := hact _ heq
        simp only [rangeClaimOk, hmn, hmx]
        cases hc : col r with
        | none => simp only [hc] at hp; exact absurd hp Bool.false_ne_true
        | some v =>
          simp only [hc] at hp
          exact ⟨v, rfl, of_decide_eq_true hp⟩
      | some mx =>
        have heq : create_range_filter (some c) col =
            some (fun row => match col row with
              | some v => decide (mn ≤ v) && decide (v ≤ mx)
              | none => false) := by
          simp only [create_range_filter, hmn, hmx]
        have hp := hact _ heq
        simp only [rangeClaimOk, hmn, hmx]
        cases hc : col r with
        | none => simp only [hc] at hp; exact absurd hp Bool.false_ne_true
        | some v =>
          simp only [hc, Bool.and_eq_true] at hp
          exact ⟨v, rfl, of_decide_eq_true hp.1, of_decide_eq_true hp.2⟩

/-- C2: every row returned by the predicate-filter stage satisfies each
configured range bound (inclusive, one- or two-sided, no constraint when the
key is absent), and every candidate row that is excluded violates at least one
configured predicate. -/
theorem C2_range_filter_correct (cfg : FilterConfig) (store : MetricsStore)
    (ds : String) (r : JoinedRow) :
    (r ∈ basicFilteredRows cfg store ds →
      rangeClaimOk cfg.duration r.duration_seconds ∧
      rangeClaimOk cfg.SNR r.SNR ∧
      rangeClaimOk cfg.dBFS r.dBFS ∧
      rangeClaimOk cfg.WER r.WER ∧
      rangeClaimOk cfg.CER r.CER) ∧
    (r ∈ joinedRows store ds → r ∉ basicFilteredRows cfg store ds →
      ∃ p ∈ generate_filters cfg, p r = false) := by
  constructor
  · intro hmem
    rw [basicFilteredRows, List.mem_filter, List.all_eq_true] at hmem
    have hall := hmem.2
    refine ⟨?_, ?_, ?_, ?_, ?_⟩
    · exact create_range_filter_sound cfg.duration (·.duration_seconds) r
        (fun p hp => hall p (List.mem_filterMap.mpr ⟨duration_filter cfg, by simp, hp⟩))
    · exact create_range_filter_sound cfg.SNR (·.SNR) r
        (fun p hp => hall p (List.mem_filterMap.mpr ⟨SNR_filter cfg, by simp, hp⟩))
    · exact create_range_filter_sound cfg.dBFS (·.dBFS) r
        (fun p hp => hall p (List.mem_filterMap.mpr ⟨dBFS_filter cfg, by simp, hp⟩))
    · exact create_range_filter_sound cfg.WER (·.WER) r
        (fun p hp => hall p (List.mem_filterMap.mpr ⟨WER_filter cfg, by simp, hp⟩))
    · exact create_range_filter_sound cfg.CER (·.CER) r
        (fun p hp => hall p (List.mem_filterMap.mpr ⟨CER_filter cfg, by simp, hp⟩))
  · intro hjoin hnot
    by_contra hcon
    push_neg at hcon
    apply hnot
    rw [basicFilteredRows, List.mem_filter]
    refine ⟨hjoin, List.all_eq_true.mpr fun p hp => ?_⟩
    exact eq_true_of_ne_false (hcon p hp)

theorem speakerHashes_disjoint (store : MetricsStore) (ds : String)
    (hnd : ((dsRows store ds).map (·.audio_md5_hash)).Nodup)
    (s s' : Int) (hne : s ≠ s') :
    ∀ h ∈ speakerHashes store ds s, h ∉ speakerHashes store ds s' := by
  intro h hs hs'
  rw [speakerHashes, List.mem_map] at hs hs'
  obtain ⟨r, hr, rfl⟩ := hs
  obtain ⟨r', hr', hk⟩ := hs'
  rw [speakerRows, List.mem_filter] at hr hr'
  have hrr : r' = r :=
    List.inj_on_of_nodup_map hnd hr'.1 hr.1 hk
  apply hne
  have hsp : r.speaker_id = s := by simpa using hr.2
  have hsp' : r'.speaker_id = s' := by simpa using hr'.2
  rw [← hsp, ← hsp', hrr]

theorem flatMap_filter_single {α : Type} [DecidableEq α] (speakers : List Int)
    (g H : Int → List α) (spk : Int)
    (hnd : speakers.Nodup) (hmem : spk ∈ speakers)
    (hsub : ∀ s, ∀ x ∈ g s, x ∈ H s)
    (hdisj : ∀ s, s ≠ spk → ∀ x ∈ H s, x ∉ H spk) :
    (speakers.flatMap g).filter (fun x => x ∈ H spk) = g spk := by
  induction speakers with
  | nil => cases hmem
  | cons a as ih =>
    rw [List.flatMap_cons, List.filter_append]
    rcases List.mem_cons.mp hmem with rfl | hmem'
    · have h1 : (g spk).filter (fun x => x ∈ H spk) = g spk :=
        List.filter_eq_self.mpr fun x hx => by
          simpa using hsub spk x hx
      have h2 : (as.flatMap g).filter (fun x => x ∈ H spk) = [] := by
        rw [List.filter_eq_nil_iff]
        intro x hx
        rw [List.mem_flatMap] at hx
        obtain ⟨s, hsmem, hxs⟩ := hx
        have hsne : s ≠ spk := by
          rintro rfl
          exact (List.nodup_cons.mp hnd).1 hsmem
        simpa using hdisj s hsne x (hsub s x hxs)
      rw [h1, h2, List.append_nil]
    · have hane : a ≠ spk := by
        rintro rfl
        exact (List.nodup_cons.mp hnd).1 hmem'
      have h1 : (g a).filter (fun x => x ∈ H spk) = [] := by
        rw [List.filter_eq_nil_iff]
        intro x hx
        simpa using hdisj a hane x (hsub a x hx)
      rw [h1, List.nil_append]
      exact ih (List.nodup_cons.mp hnd).2 hmem'

/-- C3: with `samples_per_speaker.max = k` configured, a speaker with more
than `k` candidate rows contributes exactly its first `k` hashes (in query
order) to the allow-list, a speaker below a configured `min` contributes
nothing, and any other speaker contributes all of its hashes. -/
theorem C3_samples_per_speaker (cfg : FilterConfig) (store : MetricsStore)
    (ds : String) (spk : Int) (q : SamplesQuotaCfg) (k : Int)
    (hq : cfg.samples_per_speaker = some q) (hk : q.max = some k)
    (hnd : ((dsRows store ds).map (·.audio_md5_hash)).Nodup)
    (hspk : spk ∈ (dsRows store ds).map (·.speaker_id)) :
    ∃ l, samples_per_speaker_filter cfg store ds = some l ∧
      l.filter (fun h => h ∈ speakerHashes store ds spk) =
        (if ((speakerRows store ds spk).length : Int) > k
         then (speakerHashes store ds spk).take k.toNat
         else if (match q.min with
                  | some m => decide (((speakerRows store ds spk).length : Int) < m)
                  | none => false)
         then []
         else speakerHashes store ds spk) := by
  simp only [samples_per_speaker_filter, hq, hk]
  refine ⟨_, rfl, ?_⟩
  rw [get_speaker_filter_query, List.flatMap_map]
  have hmem : spk ∈ dropDuplicatesBy id ((dsRows store ds).map (·.speaker_id)) [] := by
    have := mem_map_key_dropDuplicatesBy id ((dsRows store ds).map (·.speaker_id)) []
      spk (by simpa using hspk) (by simp)
    simpa using this
  have hndsp : (dropDuplicatesBy id ((dsRows store ds).map (·.speaker_id)) []).Nodup := by
    have := dropDuplicatesBy_map_key_nodup id ((dsRows store ds).map (·.speaker_id)) []
    simpa using this
  exact flatMap_filter_single _ _ (speakerHashes store ds) spk hndsp hmem
    (fun s x hx => by
      by_cases h1 : ((speakerRows store ds s).length : Int) > k
      · rw [if_pos h1] at hx
        exact List.take_subset _ _ hx
      · rw [if_neg h1] at hx
        by_cases h2 : (match q.min with
          | some m => decide (((speakerRows store ds s).length : Int) < m)
          | none => false) = true
        · rw [if_pos h2] at hx
          cases hx
        · rw [if_neg h2] at hx
          exact hx)
    (fun s hsne x hx => speakerHashes_disjoint store ds hnd s spk hsne x hx)

/-- Witness for C3: `samples_per_speaker {max: 2}` with speaker 1 owning five
candidate rows contributes exactly its first two hashes. -/
theorem C3_samples_per_speaker_witness :
    ∃ l, samples_per_speaker_filter cfgMaxTwoSamples storeFiveSamples "ds" = some l ∧
      l.filter (fun h => h ∈ speakerHashes storeFiveSamples "ds" 1) =
        ["h1", "h2"] := by
  obtain ⟨l, h1, h2⟩ := C3_samples_per_speaker cfgMaxTwoSamples storeFiveSamples
    "ds" 1 ⟨none, some 2⟩ 2 rfl rfl (by decide) (by decide)
  exact ⟨l, h1, h2.trans (by decide)⟩

theorem accumulateUntil_subset (cap : ℚ) (pairs : List (String × ℚ)) (acc : ℚ) :
    ∀ x ∈ accumulateUntil cap pairs acc, x ∈ pairs.map (·.1) := by
  induction pairs generalizing acc with
  | nil => intro x hx; simp [accumulateUntil] at hx
  | cons hd rest ih =>
    obtain ⟨h, d⟩ := hd
    intro x hx
    simp only [accumulateUntil] at hx
    by_cases hbr : acc + d > cap
    · rw [if_pos hbr] at hx
      simp only [List.mem_singleton] at hx
      simp [hx]
    · rw [if_neg hbr] at hx
      rcases List.mem_cons.mp hx with rfl | hx'
      · simp
      · exact List.mem_cons_of_mem _ (ih (acc + d) x hx')

theorem joinedDurations_fst_mem (store : MetricsStore) (ds : String) (spk : Int) :
    ∀ x ∈ (joinedDurations store ds spk).map (·.1), x ∈ speakerHashes store ds spk := by
  intro x hx
  rw [List.mem_map] at hx
  obtain ⟨pr, hpr, rfl⟩ := hx
  rw [joinedDurations, List.mem_filterMap] at hpr
  obtain ⟨r, hr, hmapeq⟩ := hpr
  rw [speakerHashes, List.mem_map]
  refine ⟨r, hr, ?_⟩
  cases hf : store.audio_metrics.find? (fun m => m.audio_md5_hash = r.audio_md5_hash) with
  | none => rw [hf] at hmapeq; exact Option.noConfusion hmapeq
  | some am =>
    rw [hf] at hmapeq
    have : pr = (r.audio_md5_hash, am.duration_seconds) := by simpa using hmapeq.symm
    rw [this]

theorem flatMap_filter_pairs {α : Type} [DecidableEq α] (items : List (Int × ℚ))
    (g : Int × ℚ → List α) (H : Int → List α) (spk : Int) (sval : ℚ)
    (hnd : (items.map (·.1)).Nodup) (hmem : (spk, sval) ∈ items)
    (hsub : ∀ it, ∀ x ∈ g it, x ∈ H it.1)
    (hdisj : ∀ s, s ≠ spk → ∀ x ∈ H s, x ∉ H spk) :
    (items.flatMap g).filter (fun x => x ∈ H spk) = g (spk, sval) := by
  induction items with
  | nil => cases hmem
  | cons a as ih =>
    rw [List.flatMap_cons, List.filter_append]
    have hnd' : (a.1 :: as.map (·.1)).Nodup := by simpa using hnd
    rcases List.mem_cons.mp hmem with rfl | hmem'
    · have h1 : (g (spk, sval)).filter (fun x => x ∈ H spk) = g (spk, sval) :=
        List.filter_eq_self.mpr fun x hx => by
          simpa using hsub (spk, sval) x hx
      have h2 : (as.flatMap g).filter (fun x => x ∈ H spk) = [] := by
        rw [List.filter_eq_nil_iff]
        intro x hx
        rw [List.mem_flatMap] at hx
        obtain ⟨it, hit, hxit⟩ := hx
        have hne : it.1 ≠ spk := by
          intro he
          exact (List.nodup_cons.mp hnd').1
            (he ▸ List.mem_map.mpr ⟨it, hit, rfl⟩)
        simpa using hdisj it.1 hne x (hsub it x hxit)
      rw [h1, h2, List.append_nil]
    · have hane : a.1 ≠ spk := by
        intro he
        exact (List.nodup_cons.mp hnd').1
          (he ▸ List.mem_map.mpr ⟨(spk, sval), hmem', rfl⟩)
      have h1 : (g a).filter (fun x => x ∈ H spk) = [] := by
        rw [List.filter_eq_nil_iff]
        intro x hx
        simpa using hdisj a.1 hane x (hsub a x hx)
      rw [h1, List.nil_append]
      exact ih (by simpa using (List.nodup_cons.mp hnd').2) hmem'

theorem map_fst_pairing (l : List Int) (f : Int → ℚ) :
    (l.map (fun s => (s, f s))).map (·.1) = l := by
  induction l with
  | nil => rfl
  | cons a as ih => simp only [List.map_cons, ih]

/-- The accumulation loop returns the hashes of the shortest prefix whose
summed duration exceeds the cap: the crossing sample is included, everything
before it summed to at most the cap. -/
theorem accumulateUntil_eq_take (cap : ℚ) (pairs : List (String × ℚ)) (acc : ℚ)
    (hacc : acc ≤ cap) (hsum : acc + (pairs.map (·.2)).sum > cap) :
    ∃ k, 1 ≤ k ∧ k ≤ pairs.length ∧
      accumulateUntil cap pairs acc = (pairs.take k).map (·.1) ∧
      acc + ((pairs.take k).map (·.2)).sum > cap ∧
      acc + ((pairs.take (k - 1)).map (·.2)).sum ≤ cap := by
  induction pairs generalizing acc with
  | nil =>
    exfalso
    simp only [List.map_nil, List.sum_nil, add_zero] at hsum
    exact absurd hsum (not_lt.mpr hacc)
  | cons hd rest ih =>
    obtain ⟨h, d⟩ := hd
    by_cases hbr : acc + d > cap
    · refine ⟨1, le_refl _, by simp, ?_, ?_, ?_⟩
      · simp only [accumulateUntil, if_pos hbr]
        simp
      · simpa using hbr
      · simpa using hacc
    · push_neg at hbr
      have hsum' : (acc + d) + (rest.map (·.2)).sum > cap := by
        simp only [List.map_cons, List.sum_cons] at hsum
        linarith
      obtain ⟨k, hk1, hklen, heq, hgt, hle⟩ := ih (acc + d) hbr hsum'
      obtain ⟨k', rfl⟩ : ∃ k', k = k' + 1 := ⟨k - 1, by omega⟩
      refine ⟨k' + 2, by omega, by simp only [List.length_cons]; omega, ?_, ?_, ?_⟩
      · simp only [accumulateUntil, if_neg (not_lt.mpr hbr), heq,
          List.take_succ_cons, List.map_cons]
      · simp only [List.take_succ_cons, List.map_cons, List.sum_cons]
        linarith
      · have h21 : k' + 2 - 1 = k' + 1 := rfl
        rw [h21, List.take_succ_cons, List.map_cons, List.sum_cons]
        have h11 : k' + 1 - 1 = k' := rfl
        rw [h11] at hle
        linarith

/-- C4: with `minutes_per_speaker.max = m` configured and a speaker whose
joined total duration exceeds `m * 60` seconds, the allow-list holds exactly
the hashes of the shortest prefix (in query order) whose running total exceeds
`m * 60`: the crossing sample is included, and the selected total exceeds the
cap by at most that one sample's duration. -/
theorem C4_minutes_per_speaker_cap (cfg : FilterConfig) (store : MetricsStore)
    (ds : String) (spk : Int) (q : MinutesQuotaCfg) (m : ℚ)
    (hq : cfg.minutes_per_speaker = some q) (hm : q.max = some m) (hm0 : 0 ≤ m)
    (hnd : ((dsRows store ds).map (·.audio_md5_hash)).Nodup)
    (hspk : spk ∈ ((dsRows store ds).filter (fun r =>
      (store.audio_metrics.find?
        (fun mm => mm.audio_md5_hash = r.audio_md5_hash)).isSome)).map (·.speaker_id))
    (hdur : ((joinedDurations store ds spk).map (·.2)).sum > m * 60) :
    ∃ l k, minutes_per_speaker_filter cfg store ds = some l ∧
      1 ≤ k ∧ k ≤ (joinedDurations store ds spk).length ∧
      l.filter (fun h => h ∈ speakerHashes store ds spk) =
        ((joinedDurations store ds spk).take k).map (·.1) ∧
      (((joinedDurations store ds spk).take k).map (·.2)).sum > m * 60 ∧
      (((joinedDurations store ds spk).take (k - 1)).map (·.2)).sum ≤ m * 60 := by
  simp only [minutes_per_speaker_filter, hq, hm]
  have hcap : (0 : ℚ) ≤ m * 60 := by positivity
  obtain ⟨k, hk1, hklen, heq, hgt, hle⟩ :=
    accumulateUntil_eq_take (m * 60) (joinedDurations store ds spk) 0 hcap
      (by simpa using hdur)
  refine ⟨_, k, rfl, hk1, hklen, ?_, by simpa using hgt, by simpa using hle⟩
  rw [speaker_durations]
  have hspks : spk ∈ dropDuplicatesBy id
      (((dsRows store ds).filter (fun r =>
        (store.audio_metrics.find?
          (fun mm => mm.audio_md5_hash = r.audio_md5_hash)).isSome)).map (·.speaker_id)) [] := by
    have := mem_map_key_dropDuplicatesBy id
      (((dsRows store ds).filter (fun r =>
        (store.audio_metrics.find?
          (fun mm => mm.audio_md5_hash = r.audio_md5_hash)).isSome)).map (·.speaker_id)) []
      spk (by simpa using hspk) (by simp)
    simpa using this
  have hndsp : (dropDuplicatesBy id
      (((dsRows store ds).filter (fun r =>
        (store.audio_metrics.find?
          (fun mm => mm.audio_md5_hash = r.audio_md5_hash)).isSome)).map (·.speaker_id)) []).Nodup := by
    have := dropDuplicatesBy_map_key_nodup id
      (((dsRows store ds).filter (fun r =>
        (store.audio_metrics.find?
          (fun mm => mm.audio_md5_hash = r.audio_md5_hash)).isSome)).map (·.speaker_id)) []
    simpa using this
  rw [flatMap_filter_pairs _ _ (speakerHashes store ds) spk
      (((joinedDurations store ds spk).map (·.2)).sum)
      (by rw [map_fst_pairing]; exact hndsp)
      (List.mem_map.mpr ⟨spk, hspks, rfl⟩)
      (fun it x hx => by
        split at hx
        · exact joinedDurations_fst_mem store ds it.1 x
            (accumulateUntil_subset _ _ _ x hx)
        · split at hx
          · cases hx
          · exact hx)
      (fun s hsne x hx => speakerHashes_disjoint store ds hnd s spk hsne x hx)]
  rw [if_pos hdur, heq]

/-- Witness for C4: a one-minute cap over samples of 50, 40 and 30 seconds
selects the 50- and 40-second samples (90 seconds, crossing sample included). -/
theorem C4_minutes_per_speaker_cap_witness :
    ∃ l k, minutes_per_speaker_filter cfgMaxOneMinute storeTwoMinutes "ds" = some l ∧
      1 ≤ k ∧ k ≤ (joinedDurations storeTwoMinutes "ds" 0).length ∧
      l.filter (fun h => h ∈ speakerHashes storeTwoMinutes "ds" 0) =
        ((joinedDurations storeTwoMinutes "ds" 0).take k).map (·.1) ∧
      (((joinedDurations storeTwoMinutes "ds" 0).take k).map (·.2)).sum > 1 * 60 ∧
      (((joinedDurations storeTwoMinutes "ds" 0).take (k - 1)).map (·.2)).sum ≤ 1 * 60 := by
  have hjd : joinedDurations storeTwoMinutes "ds" 0 =
      [("h1", 50), ("h2", 40), ("h3", 30)] := rfl
  exact C4_minutes_per_speaker_cap cfgMaxOneMinute storeTwoMinutes "ds" 0
    ⟨none, some 1⟩ 1 rfl rfl (by norm_num) (by decide) (by decide)
    (by rw [hjd]; norm_num)

/-- Witness for C2: a `{min: 2, max: 15}` duration filter keeps the 5-second
sample with its bound satisfied and rejects the 20-second sample through a
violated predicate. -/
theorem C2_range_filter_correct_witness :
    (rangeClaimOk cfgDurationRange.duration
        (joinRow storeDuration ⟨"h1", "ds", "a.wav", 0⟩).duration_seconds ∧
      rangeClaimOk cfgDurationRange.SNR
        (joinRow storeDuration ⟨"h1", "ds", "a.wav", 0⟩).SNR ∧
      rangeClaimOk cfgDurationRange.dBFS
        (joinRow storeDuration ⟨"h1", "ds", "a.wav", 0⟩).dBFS ∧
      rangeClaimOk cfgDurationRange.WER
        (joinRow storeDuration ⟨"h1", "ds", "a.wav", 0⟩).WER ∧
      rangeClaimOk cfgDurationRange.CER
        (joinRow storeDuration ⟨"h1", "ds", "a.wav", 0⟩).CER) ∧
    (∃ p ∈ generate_filters cfgDurationRange,
      p (joinRow storeDuration ⟨"h2", "ds", "b.wav", 0⟩) = false) := by
  constructor
  · exact (C2_range_filter_correct cfgDurationRange storeDuration "ds"
      (joinRow storeDuration ⟨"h1", "ds", "a.wav", 0⟩)).1 (by decide)
  · exact (C2_range_filter_correct cfgDurationRange storeDuration "ds"
      (joinRow storeDuration ⟨"h2", "ds", "b.wav", 0⟩)).2 (by decide) (by decide)

/-- C7: with text inclusion requested, `process_filtered_data` resolves each
row's text to OriginalText when present, otherwise to ASRText when present,
and drops exactly the rows that have neither text; rows with at least one text
are never dropped. -/
theorem C7_text_fallback (df : List FilteredRow) :
    process_filtered_data df true = df.filterMap spec_resolve_text := by
  induction df with
  | nil => rfl
  | cons r rs ih =>
    simp only [process_filtered_data, if_true, List.map_cons, List.filterMap_cons] at ih ⊢
    cases ho : r.original_text with
    | some t => simp [spec_resolve_text, ho, ih]
    | none =>
      cases ha : r.asr_text with
      | some t => simp [spec_resolve_text, ho, ha, ih]
      | none => simp [spec_resolve_text, ho, ha, ih]

/-- C8: `read_yaml_config` returns the named profile when present, falls back
to the "default" profile when the name is absent, and errors out when neither
exists; in the error case `filter_dataset` returns the same error for every
store, i.e. it aborts before any store access. -/
theorem C8_config_fallback (configs : List (String × FilterConfig)) (name : String) :
    (∀ c, configs.lookup name = some c →
      read_yaml_config configs (some name) = Except.ok c) ∧
    (configs.lookup name = none → ∀ d, configs.lookup "default" = some d →
      read_yaml_config configs (some name) = Except.ok d) ∧
    (configs.lookup name = none → configs.lookup "default" = none →
      (∃ e, read_yaml_config configs (some name) = Except.error e) ∧
      ∀ store store' ds,
        filter_dataset configs (some name) store ds =
          filter_dataset configs (some name) store' ds) := by
  refine ⟨fun c hc => ?_, fun hn d hd => ?_, fun hn hd => ?_⟩
  · simp [read_yaml_config, hc]
  · simp [read_yaml_config, hn, hd]
  · refine ⟨⟨"Default configs was not found", ?_⟩, fun store store' ds => ?_⟩
    · simp [read_yaml_config, hn, hd]
    · simp [filter_dataset, read_yaml_config, hn, hd]

/-- Witness for C8 at concrete configuration files. -/
theorem C8_config_fallback_witness :
    read_yaml_config [("default", ({} : FilterConfig))] (some "x") =
      Except.ok ({} : FilterConfig) ∧
    (∃ e, read_yaml_config ([] : List (String × FilterConfig)) (some "x") =
      Except.error e) := by
  constructor
  · exact (C8_config_fallback [("default", ({} : FilterConfig))] "x").2.1 rfl
      ({} : FilterConfig) rfl
  · exact ((C8_config_fallback ([] : List (String × FilterConfig)) "x").2.2
      rfl rfl).1

/-- C10: when a quota block is present but its "max" key is absent, the quota
filter returns no allow-list at all, even when "min" is set, and the final
query result is exactly the predicate-filtered rows — no per-speaker
constraint is applied. -/
theorem C10_quota_requires_max (cfg : FilterConfig) (store : MetricsStore)
    (ds : String) (q1 : SamplesQuotaCfg) (q2 : MinutesQuotaCfg)
    (h1 : cfg.samples_per_speaker = some q1) (h1m : q1.max = none)
    (h2 : cfg.minutes_per_speaker = some q2) (h2m : q2.max = none) :
    samples_per_speaker_filter cfg store ds = none ∧
    minutes_per_speaker_filter cfg store ds = none ∧
    filter_dataset_rows cfg store ds = basicFilteredRows cfg store ds := by
  have hs : samples_per_speaker_filter cfg store ds = none := by
    simp [samples_per_speaker_filter, h1, h1m]
  have hm : minutes_per_speaker_filter cfg store ds = none := by
    simp [minutes_per_speaker_filter, h2, h2m]
  exact ⟨hs, hm, by simp [filter_dataset_rows, hs, hm]⟩

/-- Witness for C10: both quota blocks set only "min". -/
theorem C10_quota_requires_max_witness :
    samples_per_speaker_filter
        { samples_per_speaker := some ⟨some 3, none⟩
          minutes_per_speaker := some ⟨some 2, none⟩ }
        storeThirtySeconds "ds" = none ∧
    minutes_per_speaker_filter
        { samples_per_speaker := some ⟨some 3, none⟩
          minutes_per_speaker := some ⟨some 2, none⟩ }
        storeThirtySeconds "ds" = none ∧
    filter_dataset_rows
        { samples_per_speaker := some ⟨some 3, none⟩
          minutes_per_speaker := some ⟨some 2, none⟩ }
        storeThirtySeconds "ds" =
      basicFilteredRows
        { samples_per_speaker := some ⟨some 3, none⟩
          minutes_per_speaker := some ⟨some 2, none⟩ }
        storeThirtySeconds "ds" :=
  C10_quota_requires_max _ storeThirtySeconds "ds" ⟨some 3, none⟩ ⟨some 2, none⟩
    rfl rfl rfl rfl

/-- C5, divergence: a speaker totalling 30 seconds is below a one-minute
`min` (30 < 1 * 60), yet `minutes_per_speaker_filter` keeps the speaker's
sample, because line 322 compares the summed seconds against `min` without
scaling by 60. -/
theorem C5_minutes_min_kept_below_minimum :
    minutes_per_speaker_filter cfgMinOneMinute storeThirtySeconds "ds" =
      some ["h1"] ∧ (30 : ℚ) < 1 * 60 := by
  constructor
  · have hsd : speaker_durations storeThirtySeconds "ds" =
        [((0 : Int), ([(30 : ℚ)]).sum)] := rfl
    have hsh : speakerHashes storeThirtySeconds "ds" 0 = ["h1"] := rfl
    simp only [minutes_per_speaker_filter, cfgMinOneMinute, hsd,
      List.flatMap_cons, List.flatMap_nil, hsh]
    norm_num
  · norm_num

/-- C6, divergence: with fingerprint "a" already in `AudioMetrics` and an
empty `audio_to_dataset` table, the records handed to the overwrite bulk
update are computed from both metadata rows (the `samples_to_add` dataframe of
line 145) instead of from the `to_update` partition, which holds only the row
with fingerprint "a". -/
theorem C6_overwrite_uses_to_add_partition :
    audio_overwrite_payload computeAlways mdTwoRows storeWithA "ds" =
      [mkAudioMetrics ⟨"a.wav", 0, "a"⟩ samplePayload,
       mkAudioMetrics ⟨"b.wav", 0, "b"⟩ samplePayload] ∧
    get_audio_metrics_from_selected_samples computeAlways
        (mdTwoRows.filter (fun r => r.hash ∈ amHashes storeWithA.audio_metrics)) =
      [mkAudioMetrics ⟨"a.wav", 0, "a"⟩ samplePayload] ∧
    audio_overwrite_payload computeAlways mdTwoRows storeWithA "ds" ≠
      get_audio_metrics_from_selected_samples computeAlways
        (mdTwoRows.filter (fun r => r.hash ∈ amHashes storeWithA.audio_metrics)) := by
  refine ⟨?_, ?_, ?_⟩ <;>
    simp [audio_overwrite_payload, get_audio_metrics_from_selected_samples,
      computeAlways, mdTwoRows, storeWithA, atdHashes, amHashes, mkAudioMetrics,
      samplePayload]

/-- C9, divergence: in `collect_audio_metrics.py` a missing source file raises
`FileNotFoundError` out of the computation unit and aborts the whole batch
(the second, present file is lost), whereas the `get_audio_info` unit of
`collect_metrics_from_dataset.py` returns the `None` sentinel for the missing
file and the batch continues with the remaining sample. -/
theorem C9_missing_file_aborts_batch :
    collectAudioMetricsBatchRun fsOnlyPresent rowsMissingFirst =
      Except.error "FileNotFoundError" ∧
    collectMetricsBatch fsOnlyPresent rowsMissingFirst =
      [⟨"h2", 1, 16000, 1, "PCM_16", 0, 0⟩] ∧
    get_audio_info fsOnlyPresent "h1" "missing.wav" = none := by
  refine ⟨?_, ?_, ?_⟩
  · rfl
  · simp [collectMetricsBatch, get_audio_info, fsOnlyPresent, rowsMissingFirst,
      samplePayload]
  · simp [get_audio_info, fsOnlyPresent]

end SpeechPipeline
